import Mathlib

/-!
Shallow embedding of the core line scanner of `find_bpdu.py`
(`Device.command_output_processing` together with the two module-level
regular expressions `PORT_REGEX_PATTERN` and `BPDU_REGEX_PATTERN`).

Lines are modelled as `List Char`; the accumulated counter table is an
association list `List (List Char × Nat)` mirroring a Python `dict`
(insertion order, unique keys, in-place update of existing keys).
-/

namespace FindBpdu

/-- ASCII whitespace as recognized by Python `str.split()` with no separator. -/
def isPySpace (c : Char) : Bool :=
  c == ' ' || c == '\t' || c == '\n' || c == '\r' || c == Char.ofNat 11 || c == Char.ofNat 12

/-- Python `line.split(maxsplit=1)`: leading whitespace dropped, first
whitespace-free token, then the remainder with its leading whitespace dropped
(kept verbatim otherwise); yields a list of 0, 1 or 2 pieces. -/
def splitMax1 (s : List Char) : List (List Char) :=
  let s1 := s.dropWhile isPySpace
  if s1 = [] then []
  else
    let tok := s1.takeWhile (fun c => !isPySpace c)
    let rest := (s1.drop tok.length).dropWhile isPySpace
    if rest = [] then [tok] else [tok, rest]

/-- Value of a digit string, as Python `int` on the group of `\d+`. -/
def digitsToNat (ds : List Char) : Nat :=
  ds.foldl (fun n c => n * 10 + (c.toNat - 48)) 0

/-- `PORT_REGEX_PATTERN = re.compile(r'^\d+ \((.+)\)')` applied with
`.match(rest)`, returning `group(1)` when the pattern matches: a nonempty
leading digit run, the literal two characters space and open parenthesis,
then a greedy nonempty capture up to the last close parenthesis (the greedy
`.+` cannot cross a newline; trailing text after that parenthesis is allowed
because the pattern has no end anchor). -/
def portRegexMatch (s : List Char) : Option (List Char) :=
  let ds := s.takeWhile Char.isDigit
  if ds = [] then none
  else
    match s.drop ds.length with
    | ' ' :: '(' :: u =>
      let u1 := u.takeWhile (fun c => c ≠ '\n')
      match u1.reverse.dropWhile (fun c => c ≠ ')') with
      | ')' :: body => if body = [] then none else some body.reverse
      | _ => none
    | _ => none

/-- `BPDU_REGEX_PATTERN = re.compile(r'^.+ received (\d+)$')` applied with
`.match(rest)`, returning `group(1)` parsed as a natural number when the
pattern matches: the string (up to an optional final newline, where `$` may
also match) must end in a nonempty digit run, preceded by the literal
`" received "`, preceded by a nonempty newline-free prefix for the greedy
`.+`. -/
def bpduRegexMatch (s : List Char) : Option Nat :=
  let s1 := if s.getLast? = some '\n' then s.dropLast else s
  let dsRev := s1.reverse.takeWhile Char.isDigit
  if dsRev = [] then none
  else
    let pre := s1.take (s1.length - dsRev.length)
    let lit := " received ".data
    if pre.length > lit.length ∧ pre.drop (pre.length - lit.length) = lit then
      if (pre.take (pre.length - lit.length)).any (fun c => c = '\n') then none
      else some (digitsToNat dsRev.reverse)
    else none

/-- Failure of a line whose keyword matched but whose remainder did not:
in the script this is the `AttributeError` raised by calling `.group(1)`
on a failed `match` (`None`). -/
inductive ParseError where
  | malformedPortLine
  | malformedObservationLine
deriving DecidableEq

/-- Outcome of classifying one stripped output line, following the `match`
statement over `line.split(maxsplit=1)`. -/
inductive ClassifiedLine where
  | portDeclaration (portLabel : List Char)
  | bpduObservation (count : Nat)
  | unrecognized
deriving DecidableEq

/-- Classification of one line: the two-token split, keyword dispatch on
`'Port'` and `'BPDU:'`, then the corresponding regular expression; a keyword
hit whose remainder fails its pattern is an error, anything else is ignored. -/
def classifyLine (line : List Char) : Except ParseError ClassifiedLine :=
  match splitMax1 line with
  | [kw, rest] =>
    if kw = "Port".data then
      match portRegexMatch rest with
      | some label => .ok (.portDeclaration label)
      | none => .error .malformedPortLine
    else if kw = "BPDU:".data then
      match bpduRegexMatch rest with
      | some n => .ok (.bpduObservation n)
      | none => .error .malformedObservationLine
    else .ok .unrecognized
  | _ => .ok .unrecognized

/-- Classify every line, stopping at the first failing line. -/
def classifyAll : List (List Char) → Except ParseError (List ClassifiedLine)
  | [] => .ok []
  | l :: ls =>
    match classifyLine l, classifyAll ls with
    | .error e, _ => .error e
    | .ok _, .error e => .error e
    | .ok c, .ok cs => .ok (c :: cs)

/-- `_result[k] += n` on a `defaultdict(int)` held as an insertion-ordered
association list: an existing key is updated in place, a missing key is
appended with the observation's value (default `0` plus `n`). -/
def updateAdd : List (List Char × Nat) → List Char → Nat → List (List Char × Nat)
  | [], k, n => [(k, n)]
  | (k', v) :: rest, k, n =>
    if k' = k then (k', v + n) :: rest else (k', v) :: updateAdd rest k n

/-- Dictionary lookup on the association list. -/
def lookupA (k : List Char) : List (List Char × Nat) → Option Nat
  | [] => none
  | (k', v) :: rest => if k' = k then some v else lookupA k rest

/-- The loop state of `command_output_processing`: the local `_port`
(initially the empty string) and `_result` (initially empty). -/
structure AggState where
  port : List Char
  result : List (List Char × Nat)
deriving DecidableEq

/-- Initial state: `_port = ''`, `_result = defaultdict(int)` (empty). -/
def initState : AggState := ⟨[], []⟩

/-- One loop iteration after classification: a port declaration overwrites
`_port`, an observation adds its count under the current `_port`, an
unmatched line leaves the state alone. -/
def applyClassified (st : AggState) (c : ClassifiedLine) : AggState :=
  match c with
  | .portDeclaration label => { st with port := label }
  | .bpduObservation n => { st with result := updateAdd st.result st.port n }
  | .unrecognized => st

/-- The aggregation fold over an already classified sequence. -/
def aggregate (st : AggState) : List ClassifiedLine → AggState
  | [] => st
  | c :: cs => aggregate (applyClassified st c) cs

/-- The whole loop over raw lines, propagating the first raised error. -/
def processLines (st : AggState) : List (List Char) → Except ParseError AggState
  | [] => .ok st
  | l :: ls =>
    match classifyLine l with
    | .error e => .error e
    | .ok c => processLines (applyClassified st c) ls

/-- `dict(filter(lambda port_counter: port_counter[1] > 0, _result.items()))`. -/
def resultFilter (m : List (List Char × Nat)) : List (List Char × Nat) :=
  m.filter (fun kv => 0 < kv.2)

/-- `Device.command_output_processing` on a list of stripped output lines:
run the loop from the initial state and keep the strictly positive counters. -/
def command_output_processing (lines : List (List Char)) :
    Except ParseError (List (List Char × Nat)) :=
  (processLines initState lines).map (fun st => resultFilter st.result)

/-- The ResultTable obtained from an already classified sequence. -/
def resultTableOfClassified (cs : List ClassifiedLine) : List (List Char × Nat) :=
  resultFilter (aggregate initState cs).result

/-- A line the loop ignores: its split is not a two-piece list headed by
exactly `'Port'` or exactly `'BPDU:'`. -/
def isUnrecognizedLine (line : List Char) : Bool :=
  match splitMax1 line with
  | [kw, _] =>
    if kw = "Port".data then false
    else if kw = "BPDU:".data then false
    else true
  | _ => true

/-- The counts attributed to port `k` by a classified sequence, in input
order, starting from current port `cur`. -/
def obsFor (k : List Char) : List Char → List ClassifiedLine → List Nat
  | _, [] => []
  | _, .portDeclaration l :: cs => obsFor k l cs
  | cur, .bpduObservation n :: cs => (if cur = k then [n] else []) ++ obsFor k cur cs
  | cur, .unrecognized :: cs => obsFor k cur cs

/-! ### Helper lemmas about the aggregation loop -/

theorem aggregate_cons (st : AggState) (c : ClassifiedLine) (cs : List ClassifiedLine) :
    aggregate st (c :: cs) = aggregate (applyClassified st c) cs := rfl

theorem lookupA_updateAdd (m : List (List Char × Nat)) (c : List Char) (n : Nat)
    (k : List Char) :
    lookupA k (updateAdd m c n) =
      if c = k then some ((lookupA k m).getD 0 + n) else lookupA k m := by
  induction m with
  | nil =>
    by_cases h : c = k <;> simp [updateAdd, lookupA, h]
  | cons p rest ih =>
    obtain ⟨a, v⟩ := p
    by_cases h1 : a = c
    · subst h1
      by_cases h2 : a = k
      · subst h2; simp [updateAdd, lookupA]
      · simp [updateAdd, lookupA, h2]
    · by_cases h2 : a = k
      · subst h2
        have hck : ¬ a = c := h1
        have hck2 : ¬ c = a := fun h => h1 h.symm
        simp [updateAdd, lookupA, h1, hck2]
      · simp [updateAdd, lookupA, h1, h2, ih]

theorem lookupA_aggregate (cs : List ClassifiedLine) :
    ∀ (cur : List Char) (m : List (List Char × Nat)) (k : List Char),
      lookupA k (aggregate ⟨cur, m⟩ cs).result =
        if obsFor k cur cs = [] then lookupA k m
        else some ((lookupA k m).getD 0 + (obsFor k cur cs).sum) := by
  induction cs with
  | nil => intro cur m k; simp [aggregate, obsFor]
  | cons c cs ih =>
    intro cur m k
    cases c with
    | portDeclaration l =>
      simpa [aggregate, applyClassified, obsFor] using ih l m k
    | bpduObservation n =>
      have h := ih cur (updateAdd m cur n) k
      rw [show aggregate ⟨cur, m⟩ (.bpduObservation n :: cs) =
            aggregate ⟨cur, updateAdd m cur n⟩ cs from rfl, h]
      by_cases hck : cur = k
      · subst hck
        by_cases hr : obsFor cur cur cs = []
        · simp [obsFor, hr, lookupA_updateAdd]
        · simp [obsFor, hr, lookupA_updateAdd, Nat.add_assoc]
      · simp [obsFor, hck, lookupA_updateAdd]
    | unrecognized =>
      simpa [aggregate, applyClassified, obsFor] using ih cur m k

/-- The key sequence of the association list, insertion-ordered. -/
def keys (m : List (List Char × Nat)) : List (List Char) :=
  m.map Prod.fst

theorem keys_cons (p : List Char × Nat) (m : List (List Char × Nat)) :
    keys (p :: m) = p.1 :: keys m := rfl

theorem mem_keys_updateAdd (m : List (List Char × Nat)) (c : List Char) (n : Nat)
    (a : List Char) :
    a ∈ keys (updateAdd m c n) ↔ a ∈ keys m ∨ a = c := by
  induction m with
  | nil => simp [updateAdd, keys]
  | cons p rest ih =>
    obtain ⟨b, v⟩ := p
    by_cases h : b = c <;> simp [updateAdd, h, keys_cons, ih] <;> tauto

theorem nodup_keys_updateAdd (m : List (List Char × Nat)) (c : List Char) (n : Nat)
    (hm : (keys m).Nodup) :
    (keys (updateAdd m c n)).Nodup := by
  induction m with
  | nil => simp [updateAdd, keys]
  | cons p rest ih =>
    obtain ⟨b, v⟩ := p
    rw [keys_cons, List.nodup_cons] at hm
    by_cases h : b = c
    · subst h
      simpa [updateAdd, keys_cons, List.nodup_cons] using hm
    · rw [show updateAdd ((b, v) :: rest) c n = (b, v) :: updateAdd rest c n by
        simp [updateAdd, h]]
      rw [keys_cons, List.nodup_cons]
      refine ⟨?_, ih hm.2⟩
      intro hmem
      rcases (mem_keys_updateAdd rest c n b).mp hmem with hb | hb
      · exact hm.1 hb
      · exact h hb

theorem nodup_keys_aggregate (cs : List ClassifiedLine) :
    ∀ st : AggState, (keys st.result).Nodup →
      (keys (aggregate st cs).result).Nodup := by
  induction cs with
  | nil => intro st h; exact h
  | cons c cs ih =>
    intro st h
    cases c with
    | portDeclaration l => exact ih _ h
    | bpduObservation n => exact ih _ (nodup_keys_updateAdd _ _ _ h)
    | unrecognized => exact ih _ h

theorem lookupA_of_mem (m : List (List Char × Nat)) (k : List Char) (v : Nat)
    (hm : (keys m).Nodup) (hkv : (k, v) ∈ m) :
    lookupA k m = some v := by
  induction m with
  | nil => cases hkv
  | cons p rest ih =>
    obtain ⟨b, w⟩ := p
    rw [keys_cons, List.nodup_cons] at hm
    rcases List.mem_cons.mp hkv with h | h
    · cases h
      simp [lookupA]
    · have hk : k ∈ keys rest := List.mem_map_of_mem Prod.fst h
      have hbk : ¬ b = k := by
        intro hb; subst hb; exact hm.1 hk
      simp only [lookupA, if_neg hbk]
      exact ih hm.2 h

theorem processLines_eq_classifyAll (lines : List (List Char)) :
    ∀ st : AggState,
      processLines st lines = (classifyAll lines).map (fun cs => aggregate st cs) := by
  induction lines with
  | nil => intro st; rfl
  | cons l ls ih =>
    intro st
    show (match classifyLine l with
          | Except.error e => Except.error e
          | Except.ok c => processLines (applyClassified st c) ls) = _
    cases hl : classifyLine l with
    | error e => simp [classifyAll, hl, Except.map]
    | ok c =>
      change processLines (applyClassified st c) ls = _
      rw [ih (applyClassified st c)]
      cases hls : classifyAll ls with
      | error e => simp [classifyAll, hl, hls, Except.map]
      | ok cs => simp [classifyAll, hl, hls, Except.map, aggregate_cons]

theorem processLines_append (xs ys : List (List Char)) :
    ∀ st : AggState,
      processLines st (xs ++ ys) =
        match processLines st xs with
        | .error e => .error e
        | .ok s2 => processLines s2 ys := by
  induction xs with
  | nil => intro st; rfl
  | cons l ls ih =>
    intro st
    show (match classifyLine l with
          | Except.error e => Except.error e
          | Except.ok c => processLines (applyClassified st c) (ls ++ ys)) = _
    cases hl : classifyLine l with
    | error e => simp [processLines, hl]
    | ok c => simp [processLines, hl, ih]

theorem classify_of_unrec (l : List Char) (h : isUnrecognizedLine l = true) :
    classifyLine l = .ok .unrecognized := by
  unfold isUnrecognizedLine at h
  unfold classifyLine
  cases hs : splitMax1 l with
  | nil => rfl
  | cons a t =>
    cases t with
    | nil => rfl
    | cons b t2 =>
      cases t2 with
      | nil =>
        rw [hs] at h
        by_cases h1 : a = "Port".data
        · simp [h1] at h
        · by_cases h2 : a = "BPDU:".data
          · simp [h1, h2] at h
          · simp [h1, h2]
      | cons c t3 => rfl

theorem resultFilter_idem (t : List (List Char × Nat)) :
    resultFilter (resultFilter t) = resultFilter t := by
  simp [resultFilter, List.filter_filter]

/-! ### Concrete inputs used by several claims -/

/-- The classified sequence of property P3. -/
def c1Sequence : List ClassifiedLine :=
  [.portDeclaration "Fa0/1".data, .bpduObservation 3, .bpduObservation 5,
   .portDeclaration "Fa0/2".data, .bpduObservation 0]

/-- The four raw lines of property P7. -/
def c4Lines : List (List Char) :=
  ["Port 1 (Fa0/1)".data, "BPDU: 0, received 2".data,
   "Port 2 (Fa0/2)".data, "BPDU: 0, received 0".data]

/-- The classification of `c4Lines`. -/
def c4Classified : List ClassifiedLine :=
  [.portDeclaration "Fa0/1".data, .bpduObservation 2,
   .portDeclaration "Fa0/2".data, .bpduObservation 0]

/-! ### The claims -/

/-- Claim C1: the aggregator accumulates repeated observation counts per
current port by summation in input order — a port absent from all
attributed observations is absent from the counter table, a port with
attributed observations carries their sum — and on the classified sequence
`[PortDeclaration "Fa0/1", BpduObservation 3, BpduObservation 5,
PortDeclaration "Fa0/2", BpduObservation 0]` the ResultTable is exactly
`{"Fa0/1" ↦ 8}`, `"Fa0/2"` being dropped because its total is zero. -/
theorem claim_C1 :
    (∀ (cs : List ClassifiedLine) (k : List Char),
      (obsFor k [] cs = [] → lookupA k (aggregate initState cs).result = none) ∧
      (obsFor k [] cs ≠ [] →
        lookupA k (aggregate initState cs).result = some (obsFor k [] cs).sum)) ∧
    resultTableOfClassified c1Sequence = [("Fa0/1".data, 8)] := by
  constructor
  · intro cs k
    have h := lookupA_aggregate cs [] [] k
    rw [show initState = (⟨[], []⟩ : AggState) from rfl]
    constructor
    · intro h0; rw [h]; simp [h0, lookupA]
    · intro h0; rw [h]; simp [h0, lookupA]
  · rfl

/-- Witness for C1 at the P3 sequence and port `"Fa0/1"`. -/
theorem claim_C1_witness :
    obsFor "Fa0/1".data [] c1Sequence ≠ [] ∧
      lookupA "Fa0/1".data (aggregate initState c1Sequence).result =
        some (obsFor "Fa0/1".data [] c1Sequence).sum :=
  ⟨by decide, (claim_C1.1 c1Sequence "Fa0/1".data).2 (by decide)⟩

/-- Claim C2 is false as stated: a BPDU-count line before any port
declaration does not fail the parse. On the single-line input
`"BPDU: 0, received 2"` the whole processing succeeds, returning the
table that maps the empty-string port label to 2. -/
theorem claim_C2_counterexample :
    command_output_processing ["BPDU: 0, received 2".data] =
      .ok [(([] : List Char), 2)] ∧
    (command_output_processing ["BPDU: 0, received 2".data]).isOk = true :=
  ⟨rfl, rfl⟩

/-- Claim C2 (amended): a BPDU-count line arriving before any port
declaration is not an error and is not dropped; its count is recorded
under the empty-string sentinel that `_port` holds initially, and the
scan continues from that state. -/
theorem claim_C2 (l : List Char) (n : Nat) (lines : List (List Char))
    (h : classifyLine l = .ok (.bpduObservation n)) :
    processLines initState (l :: lines) =
      processLines ⟨[], [([], n)]⟩ lines := by
  have h1 : processLines initState (l :: lines) =
      match classifyLine l with
      | Except.error e => Except.error e
      | Except.ok c => processLines (applyClassified initState c) lines := rfl
  rw [h1, h]
  rfl

/-- Witness for the amended C2 at the line `"BPDU: 0, received 2"`. -/
theorem claim_C2_witness :
    processLines initState ["BPDU: 0, received 2".data, "Port 1 (Fa0/1)".data] =
      processLines ⟨[], [([], 2)]⟩ ["Port 1 (Fa0/1)".data] :=
  claim_C2 "BPDU: 0, received 2".data 2 ["Port 1 (Fa0/1)".data] rfl

/-- Claim C3: a line whose first token is exactly `Port` but whose remainder
does not match the digits-space-parenthesized-label pattern makes the
classifier raise at once, and the whole processing of any sequence reaching
that line fails rather than skipping it. -/
theorem claim_C3 (line rest : List Char)
    (h1 : splitMax1 line = ["Port".data, rest])
    (h2 : portRegexMatch rest = none) :
    classifyLine line = .error .malformedPortLine ∧
    ∀ (pre : List (List Char)) (st : AggState) (lines : List (List Char)),
      processLines initState pre = .ok st →
      command_output_processing (pre ++ line :: lines) =
        .error .malformedPortLine := by
  have hc : classifyLine line = .error .malformedPortLine := by
    simp [classifyLine, h1, h2]
  refine ⟨hc, ?_⟩
  intro pre st lines hpre
  have hstep : processLines st (line :: lines) = .error .malformedPortLine := by
    have h3 : processLines st (line :: lines) =
        match classifyLine line with
        | Except.error e => Except.error e
        | Except.ok c => processLines (applyClassified st c) lines := rfl
    rw [h3, hc]
  rw [command_output_processing, processLines_append pre (line :: lines) initState,
    hpre]
  change Except.map (fun st2 => resultFilter st2.result)
      (processLines st (line :: lines)) = Except.error ParseError.malformedPortLine
  rw [hstep]
  rfl

/-- Witness for C3 at the line `"Port abc"` of property P8, placed after a
well-formed port line and before a well-formed count line. -/
theorem claim_C3_witness :
    classifyLine "Port abc".data = .error .malformedPortLine ∧
    command_output_processing
        (["Port 1 (Fa0/1)".data] ++ "Port abc".data :: ["BPDU: 0, received 2".data]) =
      .error .malformedPortLine :=
  ⟨(claim_C3 "Port abc".data "abc".data rfl rfl).1,
   (claim_C3 "Port abc".data "abc".data rfl rfl).2
     ["Port 1 (Fa0/1)".data] ⟨"Fa0/1".data, []⟩ ["BPDU: 0, received 2".data] rfl⟩

/-- Claim C4: the four-line input of property P7 parses to exactly
`{"Fa0/1" ↦ 2}`. -/
theorem claim_C4 :
    command_output_processing c4Lines = .ok [("Fa0/1".data, 2)] := rfl

/-- Claim C5: on every successfully parsed line sequence, every entry of the
ResultTable has a strictly positive counter, its key received at least one
observation while it was the current port, and its value is the sum of the
observations attributed to it in input order. -/
theorem claim_C5 (lines : List (List Char)) (cs : List ClassifiedLine)
    (m : List (List Char × Nat))
    (hc : classifyAll lines = .ok cs)
    (hm : command_output_processing lines = .ok m) :
    ∀ (k : List Char) (v : Nat), (k, v) ∈ m →
      0 < v ∧ obsFor k [] cs ≠ [] ∧ v = (obsFor k [] cs).sum := by
  intro k v hkv
  have hp : processLines initState lines = .ok (aggregate initState cs) := by
    rw [processLines_eq_classifyAll lines initState, hc]
    rfl
  have hmm : m = resultFilter (aggregate initState cs).result := by
    rw [command_output_processing, hp] at hm
    exact (Except.ok.injEq .. ▸ hm :
      resultFilter (aggregate initState cs).result = m).symm
  subst hmm
  have hmem := List.mem_filter.mp hkv
  have hpos : 0 < v := by simpa using hmem.2
  have hnodup : (keys (aggregate initState cs).result).Nodup :=
    nodup_keys_aggregate cs initState (by simp [initState, keys])
  have hlook : lookupA k (aggregate initState cs).result = some v :=
    lookupA_of_mem _ _ _ hnodup hmem.1
  have hagg := lookupA_aggregate cs [] [] k
  rw [show (⟨[], []⟩ : AggState) = initState from rfl] at hagg
  rw [hagg] at hlook
  by_cases h0 : obsFor k [] cs = []
  · rw [if_pos h0] at hlook
    simp [lookupA] at hlook
  · rw [if_neg h0] at hlook
    refine ⟨hpos, h0, ?_⟩
    simpa [lookupA] using hlook.symm

/-- Witness for C5 at the P7 input, entry `("Fa0/1", 2)`. -/
theorem claim_C5_witness :
    0 < 2 ∧ obsFor "Fa0/1".data [] c4Classified ≠ [] ∧
      2 = (obsFor "Fa0/1".data [] c4Classified).sum :=
  claim_C5 c4Lines c4Classified [("Fa0/1".data, 2)] rfl rfl
    "Fa0/1".data 2 (by simp)

/-- Claim C6: lines the classifier ignores are no-ops for the whole
processing: removing every unrecognized line does not change the outcome,
and inserting an unrecognized line at any position does not change it
either. -/
theorem claim_C6 :
    (∀ lines : List (List Char),
      command_output_processing (lines.filter (fun l => !isUnrecognizedLine l)) =
        command_output_processing lines) ∧
    (∀ (pre suf : List (List Char)) (u : List Char),
      isUnrecognizedLine u = true →
      command_output_processing (pre ++ u :: suf) =
        command_output_processing (pre ++ suf)) := by
  have hfil : ∀ (lines : List (List Char)) (st : AggState),
      processLines st (lines.filter (fun l => !isUnrecognizedLine l)) =
        processLines st lines := by
    intro lines
    induction lines with
    | nil => intro st; rfl
    | cons l ls ih =>
      intro st
      by_cases hu : isUnrecognizedLine l = true
      · have hcl := classify_of_unrec l hu
        have hstep : processLines st (l :: ls) = processLines st ls := by
          have h3 : processLines st (l :: ls) =
              match classifyLine l with
              | Except.error e => Except.error e
              | Except.ok c => processLines (applyClassified st c) ls := rfl
          rw [h3, hcl]
          rfl
        rw [hstep, List.filter_cons_of_neg (by simp [hu]), ih st]
      · rw [List.filter_cons_of_pos (by simp [hu])]
        have h3 : ∀ t, processLines st (l :: t) =
            match classifyLine l with
            | Except.error e => Except.error e
            | Except.ok c => processLines (applyClassified st c) t := fun t => rfl
        rw [h3, h3]
        cases classifyLine l with
        | error e => rfl
        | ok c => exact ih (applyClassified st c)
  constructor
  · intro lines
    rw [command_output_processing, command_output_processing, hfil lines initState]
  · intro pre suf u hu
    rw [command_output_processing, command_output_processing,
      processLines_append pre (u :: suf) initState,
      processLines_append pre suf initState]
    cases processLines initState pre with
    | error e => rfl
    | ok st =>
      show Except.map (fun s => resultFilter s.result) (processLines st (u :: suf)) =
        Except.map (fun s => resultFilter s.result) (processLines st suf)
      have h3 : processLines st (u :: suf) =
          match classifyLine u with
          | Except.error e => Except.error e
          | Except.ok c => processLines (applyClassified st c) suf := rfl
      rw [h3, classify_of_unrec u hu]
      rfl

/-- Witness for C6: inserting the unrelated line
`"Root ID    Priority 32768"` between a port line and a count line. -/
theorem claim_C6_witness :
    isUnrecognizedLine "Root ID    Priority 32768".data = true ∧
    command_output_processing
        (["Port 1 (Fa0/1)".data] ++
          "Root ID    Priority 32768".data :: ["BPDU: 0, received 2".data]) =
      command_output_processing
        (["Port 1 (Fa0/1)".data] ++ ["BPDU: 0, received 2".data]) :=
  ⟨rfl, claim_C6.2 ["Port 1 (Fa0/1)".data] ["BPDU: 0, received 2".data]
    "Root ID    Priority 32768".data rfl⟩

/-- Claim C7: the line `"Port  3 (GigabitEthernet0/3)"` (two spaces after the
keyword) classifies as a port declaration whose label is exactly the text
inside the parentheses. -/
theorem claim_C7 :
    classifyLine "Port  3 (GigabitEthernet0/3)".data =
      .ok (.portDeclaration "GigabitEthernet0/3".data) := rfl

/-- Claim C8: well-formed BPDU-count lines preceding any port declaration do
not fail the scan; their counts are recorded under the empty-string label,
and when their total is positive a run of those lines alone returns a table
containing the empty-string key with that total. -/
theorem claim_C8 (pre : List (List Char)) (ns : List Nat) (rest : List (List Char))
    (hc : classifyAll pre = .ok (ns.map ClassifiedLine.bpduObservation))
    (hne : ns ≠ []) :
    processLines initState (pre ++ rest) =
      processLines ⟨[], [([], ns.sum)]⟩ rest ∧
    (0 < ns.sum → command_output_processing pre = .ok [([], ns.sum)]) := by
  have hagg : ∀ (ms : List Nat) (a : Nat),
      aggregate ⟨[], [([], a)]⟩ (ms.map ClassifiedLine.bpduObservation) =
        ⟨[], [([], a + ms.sum)]⟩ := by
    intro ms
    induction ms with
    | nil => intro a; simp [aggregate]
    | cons n ms ih =>
      intro a
      rw [List.map_cons, aggregate_cons,
        show applyClassified ⟨[], [([], a)]⟩ (.bpduObservation n) =
          ⟨[], [([], a + n)]⟩ by simp [applyClassified, updateAdd],
        ih (a + n)]
      simp [Nat.add_assoc]
  have hpre : processLines initState pre = .ok (⟨[], [([], ns.sum)]⟩ : AggState) := by
    rw [processLines_eq_classifyAll pre initState, hc]
    cases ns with
    | nil => exact absurd rfl hne
    | cons n ms =>
      rw [show Except.map (fun cs => aggregate initState cs)
            (Except.ok ((n :: ms).map ClassifiedLine.bpduObservation)) =
          Except.ok (aggregate initState ((n :: ms).map ClassifiedLine.bpduObservation))
          from rfl]
      rw [List.map_cons, aggregate_cons,
        show applyClassified initState (.bpduObservation n) =
          ⟨[], [([], n)]⟩ by simp [applyClassified, initState, updateAdd],
        hagg ms n]
      simp [List.sum_cons]
  constructor
  · rw [processLines_append pre rest initState, hpre]
  · intro hposs
    rw [command_output_processing, hpre]
    simp [Except.map, resultFilter, hposs]

/-- Witness for C8: the single count line `"BPDU: 0, received 3"` before a
port line, and the same line alone. -/
theorem claim_C8_witness :
    processLines initState (["BPDU: 0, received 3".data] ++ ["Port 1 (Fa0/1)".data]) =
      processLines ⟨[], [([], 3)]⟩ ["Port 1 (Fa0/1)".data] ∧
    command_output_processing ["BPDU: 0, received 3".data] =
      .ok [(([] : List Char), 3)] :=
  ⟨(claim_C8 ["BPDU: 0, received 3".data] [3] ["Port 1 (Fa0/1)".data] rfl
      (by decide)).1,
   (claim_C8 ["BPDU: 0, received 3".data] [3] [] rfl (by decide)).2 (by decide)⟩

/-- Claim C9: consuming a port declaration only rewrites the current-port
field; the counter table is untouched for every state and label. -/
theorem claim_C9 (st : AggState) (label : List Char) :
    (applyClassified st (.portDeclaration label)).result = st.result ∧
    (applyClassified st (.portDeclaration label)).port = label :=
  ⟨rfl, rfl⟩

/-- Claim C10: every ResultTable the scan returns is already filtered, so
applying the positive-counter filter to it again (once or twice) changes
nothing. -/
theorem claim_C10 (lines : List (List Char)) (m : List (List Char × Nat))
    (hm : command_output_processing lines = .ok m) :
    resultFilter m = m ∧
    resultFilter (resultFilter m) = resultFilter m := by
  rw [command_output_processing] at hm
  cases hp : processLines initState lines with
  | error e => rw [hp] at hm; cases hm
  | ok st =>
    rw [hp] at hm
    have hmm : resultFilter st.result = m := Except.ok.injEq .. ▸ hm
    subst hmm
    exact ⟨resultFilter_idem st.result, resultFilter_idem (resultFilter st.result)⟩

/-- Witness for C10 at a two-line input with one positive counter. -/
theorem claim_C10_witness :
    resultFilter [("Gi0/1".data, 7)] = [("Gi0/1".data, 7)] ∧
    resultFilter (resultFilter [("Gi0/1".data, 7)]) = resultFilter [("Gi0/1".data, 7)] :=
  claim_C10 ["Port 1 (Gi0/1)".data, "BPDU: 0, received 7".data]
    [("Gi0/1".data, 7)] rfl

end FindBpdu
